import Mathlib

/-!
Verification development for `mc_vmc_renamer.py` (blockfeed/vmc-renamer).

The program is a single-file CLI that converts GameCube memory-card save
layouts between the MCGCP scheme (`MemoryCards/{GAMEID}0100/{GAMEID}0100-1.raw`)
and the GCMCE scheme
(`MemoryCards/GC/DL-DOL-{GAMEID}-{REGION3}/DL-DOL-{GAMEID}-{REGION3}-1.raw`).

Shallow embedding conventions:
- A filesystem path is a list of components (`Path`), already resolved
  (`Path.resolve` from the source is the identity here).
- The filesystem is an explicit state `FS`: a list of existing directories
  and an association list of files to their (opaque string) contents.
  Directory iteration order is the order in which paths appear in the state.
- Python dictionaries become association lists (`Dict`) with first-match
  lookup and in-place update.
- Exceptions become `Except (Err × FS)`: the error value carries the
  filesystem state at the moment the exception is raised.
- Printing (`print`, `log`) has no effect on the modelled state and is
  dropped; the `verbose` flag is kept as an (inert) parameter.
-/

namespace VMC

abbrev Path := List String

/-- `True` when `p` lies at or below `root` (i.e. `root` is a prefix of `p`). -/
def underPath (root p : Path) : Bool := decide (p.take root.length = root)

/-- `True` when `p` is a direct child of `parent`. -/
def isChildOf (parent p : Path) : Bool :=
  decide (p.length = parent.length + 1) && decide (p.take parent.length = parent)

/-- All nonempty prefixes of `p`, shortest first (the chain of directories
`mkdir(parents=True)` ensures). -/
def pathPrefixes (p : Path) : List Path :=
  (List.range p.length).map (fun i => p.take (i + 1))

/-- Filesystem state: existing directories and files (path with contents). -/
structure FS where
  dirs : List Path
  files : List (Path × String)
  deriving DecidableEq, Repr

/-- Errors raised by the filesystem operations the program uses. -/
inductive Err where
  | fileExists
  | fileNotFound
  deriving DecidableEq, Repr

def FS.isDir (fs : FS) (p : Path) : Bool := decide (p ∈ fs.dirs)

def FS.getFile (fs : FS) (p : Path) : Option String :=
  (fs.files.find? (fun kv => decide (kv.1 = p))).map Prod.snd

def FS.isFile (fs : FS) (p : Path) : Bool := (fs.getFile p).isSome

/-- `Path.exists()`: the path is a directory or a file. -/
def FS.existsPath (fs : FS) (p : Path) : Bool := fs.isDir p || fs.isFile p

/-- Every path present in the state (directories first, then files). -/
def FS.allPaths (fs : FS) : List Path := fs.dirs ++ fs.files.map Prod.fst

/-- `Path.iterdir()`: the direct children of `d`, in state order. -/
def FS.childrenOf (fs : FS) (d : Path) : List Path :=
  fs.allPaths.filter (isChildOf d)

/-- `p.mkdir(parents=True, exist_ok=True)`: ensure `p` and all its
ancestors exist as directories. -/
def FS.mkdirParents (fs : FS) (p : Path) : FS :=
  { fs with dirs := fs.dirs ++ (pathPrefixes p).filter (fun q => !fs.isDir q) }

/-- `Path.unlink()` restricted to how the program calls it (the target is a
file): remove the file entry. -/
def FS.unlink (fs : FS) (p : Path) : FS :=
  { fs with files := fs.files.filter (fun kv => decide (kv.1 ≠ p)) }

/-- `shutil.rmtree(p)`: remove `p` and everything below it. -/
def FS.rmtree (fs : FS) (p : Path) : FS :=
  { dirs := fs.dirs.filter (fun d => !underPath p d),
    files := fs.files.filter (fun kv => !underPath p kv.1) }

/-- `Path.rmdir()` wrapped in the program's `try ... except OSError: pass`:
remove the directory when it exists and is empty, otherwise leave the state
unchanged. -/
def FS.rmdirTry (fs : FS) (p : Path) : FS :=
  if fs.isDir p && (fs.childrenOf p).isEmpty then
    { fs with dirs := fs.dirs.filter (fun d => decide (d ≠ p)) }
  else fs

/-- `shutil.copy2(src, dst)`: copy the file contents of `src` to `dst`
(overwriting a file already at `dst`). Fails when `src` is not a file. -/
def FS.copy2 (fs : FS) (src dst : Path) : Except (Err × FS) FS :=
  match fs.getFile src with
  | none => .error (Err.fileNotFound, fs)
  | some c =>
    .ok { fs with files := (dst, c) :: fs.files.filter (fun kv => decide (kv.1 ≠ dst)) }

/-- `src.replace(dst)` as used on a save file: rename `src` to `dst`,
silently replacing a file already at `dst`. Fails when `src` is missing. -/
def FS.replaceFile (fs : FS) (src dst : Path) : Except (Err × FS) FS :=
  match fs.getFile src with
  | none => .error (Err.fileNotFound, fs)
  | some c =>
    .ok { fs with
          files := (dst, c) ::
            fs.files.filter (fun kv => decide (kv.1 ≠ src) && decide (kv.1 ≠ dst)) }

/-- `shutil.copytree(src, dst)`: fails when `src` is not a directory or
`dst` already exists; otherwise replicates everything at or below `src`
under `dst`. -/
def FS.copytree (fs : FS) (src dst : Path) : Except (Err × FS) FS :=
  if fs.isDir src = false then .error (Err.fileNotFound, fs)
  else if fs.existsPath dst then .error (Err.fileExists, fs)
  else .ok
    { dirs := fs.dirs ++ fs.dirs.filterMap
        (fun d => if underPath src d then some (dst ++ d.drop src.length) else none),
      files := fs.files ++ fs.files.filterMap
        (fun kv => if underPath src kv.1 then
          some (dst ++ kv.1.drop src.length, kv.2) else none) }

/-! ## Region tables (`DEFAULT_REGION3_FROM_LETTER`, `DEFAULT_LETTER_FROM_REGION3`) -/

/-- `str.upper()` for the ASCII data the program handles (element-wise
`Char.toUpper`; written out so it evaluates by kernel reduction). -/
def upper (s : String) : String := ⟨s.data.map Char.toUpper⟩

/-- A Python `dict` as an association list, first match wins on lookup. -/
abbrev Dict := List (String × String)

/-- `d.get(k)` / `d[k]` lookup. -/
def dget? (d : Dict) (k : String) : Option String :=
  (d.find? (fun kv => decide (kv.1 = k))).map Prod.snd

/-- `d[k] = v`: replace the binding in place when the key is present,
otherwise append it. -/
def dinsert (d : Dict) (k v : String) : Dict :=
  match d with
  | [] => [(k, v)]
  | hd :: tl => if hd.1 = k then (k, v) :: tl else hd :: dinsert tl k v

def dkeys (d : Dict) : List String := d.map Prod.fst

def DEFAULT_REGION3_FROM_LETTER : Dict :=
  [("E", "USA"), ("J", "JPN"), ("P", "EUR"), ("K", "KOR"), ("D", "GER"),
   ("F", "FRA"), ("I", "ITA"), ("S", "ESP"), ("X", "OTH"), ("Y", "OTH"),
   ("Z", "OTH")]

def DEFAULT_LETTER_FROM_REGION3 : Dict :=
  [("USA", "E"), ("JPN", "J"), ("EUR", "P"), ("KOR", "K"), ("GER", "D"),
   ("FRA", "F"), ("ITA", "I"), ("ESP", "S"), ("OTH", "X")]

/-- The parsed contents of a `--region-map-json` file: two optional mapping
objects, absent objects modelled as empty lists. -/
structure RegionOverride where
  letter_to_region3 : List (String × String)
  region3_to_letter : List (String × String)
  deriving DecidableEq, Repr

/-- The merge loop of `load_region_map`: for each override pair,
`table[k.upper()] = v.upper()`. -/
def applyOverrides (d : Dict) (ov : List (String × String)) : Dict :=
  ov.foldl (fun acc kv => dinsert acc (upper kv.1) (upper kv.2)) d

/-- `load_region_map`. File IO and JSON parsing are abstracted: the
`Optional[Path]` argument together with the file's contents is modelled as
the parsed override data itself. -/
def load_region_map (ov : Option RegionOverride) : Dict × Dict :=
  match ov with
  | none => (DEFAULT_REGION3_FROM_LETTER, DEFAULT_LETTER_FROM_REGION3)
  | some o =>
    (applyOverrides DEFAULT_REGION3_FROM_LETTER o.letter_to_region3,
     applyOverrides DEFAULT_LETTER_FROM_REGION3 o.region3_to_letter)

/-! ## Directory-name matchers (`RE_MCGCP_DIR`, `RE_GCMCE_DIR`) -/

/-- A character of the class `[A-Z0-9]`. -/
def isUpperAlnumChar (c : Char) : Bool := c.isUpper || c.isDigit

/-- `RE_MCGCP_DIR`: `^([A-Z0-9]{4})0100$`, returning the GAMEID group. -/
def matchMCGCP (name : String) : Option String :=
  let cs := name.toList
  if decide (cs.length = 8) && (cs.take 4).all isUpperAlnumChar &&
     decide (cs.drop 4 = ['0', '1', '0', '0'])
  then some (String.mk (cs.take 4)) else none

/-- `RE_GCMCE_DIR`: `^DL-DOL-([A-Z0-9]{4})-([A-Z]{3})$`, returning the
GAMEID and REGION3 groups. -/
def matchGCMCE (name : String) : Option (String × String) :=
  let cs := name.toList
  if decide (cs.length = 15) && decide (cs.take 7 = "DL-DOL-".toList) &&
     ((cs.drop 7).take 4).all isUpperAlnumChar &&
     decide ((cs.drop 11).take 1 = ['-']) && (cs.drop 12).all Char.isUpper
  then some (String.mk ((cs.drop 7).take 4), String.mk (cs.drop 12)) else none

/-! ## Scanners -/

/-- `scan_mcgcp`: `(dir, file, gameid)` for MCGCP entries under
`memorycards_dir`. -/
def scan_mcgcp (fs : FS) (memorycards_dir : Path) : List (Path × Path × String) :=
  if fs.existsPath memorycards_dir = false then []
  else (fs.childrenOf memorycards_dir).filterMap (fun entry =>
    if fs.isDir entry = false then none
    else
      let name := entry.getLastD ""
      match matchMCGCP name with
      | none => none
      | some gameid =>
        let raw := entry ++ [name ++ "-1.raw"]
        if fs.existsPath raw then some (entry, raw, gameid) else none)

/-- `scan_gcmce`: `(dir, file, gameid, region3)` for GCMCE entries under
`gc_dir`. -/
def scan_gcmce (fs : FS) (gc_dir : Path) : List (Path × Path × String × String) :=
  if fs.existsPath gc_dir = false then []
  else (fs.childrenOf gc_dir).filterMap (fun entry =>
    if fs.isDir entry = false then none
    else
      let name := entry.getLastD ""
      match matchGCMCE name with
      | none => none
      | some g =>
        let raw := entry ++ [name ++ "-1.raw"]
        if fs.existsPath raw then some (entry, raw, g.1, g.2) else none)

/-! ## Plan -/

structure PlanItem where
  src_dir : Path
  src_file : Path
  dst_dir : Path
  dst_file : Path
  action : String
  reason : String
  deriving DecidableEq, Repr

/-- `plan_mcgcp_to_gcmce`. -/
def plan_mcgcp_to_gcmce (fs : FS) (sd_root out_root : Path) (l2r : Dict)
    (copy_mode : Bool) : List PlanItem :=
  let src_root := sd_root ++ ["MemoryCards"]
  let dst_root := out_root ++ ["MemoryCards", "GC"]
  (scan_mcgcp fs src_root).map (fun e =>
    let gameid := e.2.2
    let region_letter := String.mk [gameid.toList.getLastD ' ']
    let region3 := (dget? l2r (upper region_letter)).getD "OTH"
    let dst_dir_name := "DL-DOL-" ++ gameid ++ "-" ++ region3
    let dst_dir := dst_root ++ [dst_dir_name]
    { src_dir := e.1, src_file := e.2.1,
      dst_dir := dst_dir, dst_file := dst_dir ++ [dst_dir_name ++ "-1.raw"],
      action := if copy_mode then "copy" else "move",
      reason := "MCGCP->GCMCE " ++ gameid ++ " -> " ++ dst_dir_name })

/-- `plan_gcmce_to_mcgcp`. The `r2l` table is a parameter of the source
function but is never consulted by its body. -/
def plan_gcmce_to_mcgcp (fs : FS) (sd_root out_root : Path) (r2l : Dict)
    (copy_mode : Bool) : List PlanItem :=
  let src_root := sd_root ++ ["MemoryCards", "GC"]
  let dst_root := out_root ++ ["MemoryCards"]
  (scan_gcmce fs src_root).map (fun e =>
    let gameid := e.2.2.1
    let region3 := e.2.2.2
    let mcgcp_dirname := gameid ++ "0100"
    let dst_dir := dst_root ++ [mcgcp_dirname]
    { src_dir := e.1, src_file := e.2.1,
      dst_dir := dst_dir, dst_file := dst_dir ++ [mcgcp_dirname ++ "-1.raw"],
      action := if copy_mode then "copy" else "move",
      reason := "GCMCE->MCGCP DL-DOL-" ++ gameid ++ "-" ++ region3 ++ " -> " ++ mcgcp_dirname })

/-! ## Executor and backup -/

/-- `safe_copy`. -/
def safe_copy (src dst : Path) (overwrite : Bool) (fs : FS) : Except (Err × FS) FS :=
  let fs1 := fs.mkdirParents dst.dropLast
  if fs1.existsPath dst then
    if overwrite then
      let fs2 := if fs1.isDir dst then fs1.rmtree dst else fs1.unlink dst
      fs2.copy2 src dst
    else .error (Err.fileExists, fs1)
  else fs1.copy2 src dst

/-- `safe_move`. -/
def safe_move (src dst : Path) (overwrite : Bool) (fs : FS) : Except (Err × FS) FS :=
  let fs1 := fs.mkdirParents dst.dropLast
  if fs1.existsPath dst then
    if overwrite then
      let fs2 := if fs1.isDir dst then fs1.rmtree dst else fs1.unlink dst
      fs2.replaceFile src dst
    else .error (Err.fileExists, fs1)
  else fs1.replaceFile src dst

/-- One non-dry-run step of `execute_plan` for a single item. After a move,
`next(p.src_dir.iterdir())` requires the source directory to still be a
directory (otherwise Python raises an uncaught `OSError`); when it is empty
the program attempts `rmdir`, swallowing any `OSError`. -/
def execute_item (p : PlanItem) (overwrite : Bool) (fs : FS) : Except (Err × FS) FS :=
  if p.action = "move" then
    match safe_move p.src_file p.dst_file overwrite fs with
    | .error e => .error e
    | .ok fs1 =>
      if fs1.isDir p.src_dir = false then .error (Err.fileNotFound, fs1)
      else if (fs1.childrenOf p.src_dir).isEmpty then .ok (fs1.rmdirTry p.src_dir)
      else .ok fs1
  else safe_copy p.src_file p.dst_file overwrite fs

/-- `execute_plan`. -/
def execute_plan (plan : List PlanItem) (overwrite dry_run verbose : Bool)
    (fs : FS) : Except (Err × FS) FS :=
  match plan with
  | [] => .ok fs
  | p :: rest =>
    if dry_run then execute_plan rest overwrite dry_run verbose fs
    else
      match execute_item p overwrite fs with
      | .error e => .error e
      | .ok fs2 => execute_plan rest overwrite dry_run verbose fs2

/-- `do_backup`. -/
def do_backup (sd_root backup_dir : Path) (overwrite dry_run : Bool)
    (fs : FS) : Except (Err × FS) FS :=
  let src := sd_root ++ ["MemoryCards"]
  let dst := backup_dir ++ ["MemoryCards.backup"]
  if dry_run then .ok fs
  else
    let fs1 :=
      if fs.existsPath dst && overwrite then
        if fs.isDir dst then fs.rmtree dst else fs.unlink dst
      else fs
    fs1.copytree src dst

/-! ## CLI entry point (`main`) -/

/-- Parsed command-line arguments. The mutually exclusive required pair
`--rename-to-gcmce` / `--rename-to-mcgcp` collapses to one Boolean
(`rename_to_gcmce = false` means `--rename-to-mcgcp`). Paths are taken as
already resolved. -/
structure Args where
  sd_root : Path
  rename_to_gcmce : Bool
  output_sd_root : Option Path
  backup_dir : Option Path
  region_override : Option RegionOverride
  force : Bool
  dry_run : Bool
  verbose : Bool
  deriving DecidableEq, Repr

/-- `main`: returns the process exit code and the final filesystem state,
or the uncaught exception with the state at the raise. -/
def main (a : Args) (fs : FS) : Except (Err × FS) (Nat × FS) :=
  let sd_root := a.sd_root
  if fs.existsPath (sd_root ++ ["MemoryCards"]) = false then .ok (1, fs)
  else
    let out_root := a.output_sd_root.getD sd_root
    let copy_mode := decide (out_root ≠ sd_root)
    let maps := load_region_map a.region_override
    let afterBackup : Except (Err × FS) FS :=
      match a.backup_dir with
      | none => .ok fs
      | some bd => do_backup sd_root bd a.force a.dry_run (fs.mkdirParents bd)
    match afterBackup with
    | .error e => .error e
    | .ok fs1 =>
      let plan :=
        if a.rename_to_gcmce then
          plan_mcgcp_to_gcmce fs1 sd_root out_root maps.1 copy_mode
        else
          plan_gcmce_to_mcgcp fs1 sd_root out_root maps.2 copy_mode
      if plan.isEmpty then .ok (0, fs1)
      else
        match execute_plan plan a.force a.dry_run a.verbose fs1 with
        | .error e => .error e
        | .ok fs2 => .ok (0, fs2)

/-! ## Association-list (dict) lemmas -/

theorem dget_nil (k : String) : dget? [] k = none := rfl

theorem dget_cons (hd : String × String) (tl : Dict) (k : String) :
    dget? (hd :: tl) k = if hd.1 = k then some hd.2 else dget? tl k := by
  by_cases h : hd.1 = k <;> simp [dget?, List.find?, h]

theorem dinsert_cons (hd : String × String) (tl : Dict) (k v : String) :
    dinsert (hd :: tl) k v = if hd.1 = k then (k, v) :: tl else hd :: dinsert tl k v := rfl

theorem dget_dinsert_self (d : Dict) (k v : String) :
    dget? (dinsert d k v) k = some v := by
  induction d with
  | nil => simp [dinsert, dget_cons]
  | cons hd tl ih =>
    rw [dinsert_cons]
    by_cases h : hd.1 = k
    · rw [if_pos h, dget_cons, if_pos rfl]
    · rw [if_neg h, dget_cons, if_neg h]
      exact ih

theorem dget_dinsert_ne (d : Dict) (k v k' : String) (h : k' ≠ k) :
    dget? (dinsert d k v) k' = dget? d k' := by
  induction d with
  | nil => simp [dinsert, dget_cons, dget_nil, Ne.symm h]
  | cons hd tl ih =>
    rw [dinsert_cons]
    by_cases hk : hd.1 = k
    · rw [if_pos hk, dget_cons, if_neg (Ne.symm h), dget_cons,
        if_neg (by rw [hk]; exact Ne.symm h)]
    · rw [if_neg hk, dget_cons, dget_cons]
      by_cases hk' : hd.1 = k'
      · rw [if_pos hk', if_pos hk']
      · rw [if_neg hk', if_neg hk']
        exact ih

theorem applyOverrides_cons (d : Dict) (kv : String × String)
    (tl : List (String × String)) :
    applyOverrides d (kv :: tl) = applyOverrides (dinsert d (upper kv.1) (upper kv.2)) tl := rfl

theorem dget_applyOverrides_of_not_mem (d : Dict) (ov : List (String × String))
    (k : String) (h : k ∉ ov.map (fun kv => upper kv.1)) :
    dget? (applyOverrides d ov) k = dget? d k := by
  induction ov generalizing d with
  | nil => rfl
  | cons hd tl ih =>
    simp only [List.map_cons, List.mem_cons, not_or] at h
    rw [applyOverrides_cons, ih _ h.2, dget_dinsert_ne _ _ _ _ h.1]

theorem dget_applyOverrides_of_mem (d : Dict) (ov : List (String × String))
    (k v : String) (hnd : (ov.map (fun kv => upper kv.1)).Nodup)
    (hmem : (k, v) ∈ ov) :
    dget? (applyOverrides d ov) (upper k) = some (upper v) := by
  induction ov generalizing d with
  | nil => cases hmem
  | cons hd tl ih =>
    rw [List.map_cons, List.nodup_cons] at hnd
    rcases List.mem_cons.mp hmem with heq | hmem'
    · have heq' : hd = (k, v) := heq.symm
      subst heq'
      rw [applyOverrides_cons, dget_applyOverrides_of_not_mem _ _ _ hnd.1]
      exact dget_dinsert_self d (upper k) (upper v)
    · exact ih (dinsert d (upper hd.1) (upper hd.2)) hnd.2 hmem'

/-! ## Dry-run executor lemma -/

theorem execute_plan_dry_run (plan : List PlanItem) (ow vb : Bool) (fs : FS) :
    execute_plan plan ow true vb fs = .ok fs := by
  induction plan with
  | nil => rfl
  | cons p rest ih => simpa [execute_plan] using ih

/-! ## Concrete example states (shared by several witnesses) -/

/-- An SD tree holding exactly the MCGCP entry
`MemoryCards/GAFE0100/GAFE0100-1.raw` under root `sd`. -/
def exMCGCP : FS :=
  ⟨[["sd"], ["sd", "MemoryCards"], ["sd", "MemoryCards", "GAFE0100"]],
   [(["sd", "MemoryCards", "GAFE0100", "GAFE0100-1.raw"], "save")]⟩

/-- An SD tree holding exactly the GCMCE entry
`MemoryCards/GC/DL-DOL-GAFE-USA/DL-DOL-GAFE-USA-1.raw` under root `sd`. -/
def exGCMCE : FS :=
  ⟨[["sd"], ["sd", "MemoryCards"], ["sd", "MemoryCards", "GC"],
    ["sd", "MemoryCards", "GC", "DL-DOL-GAFE-USA"]],
   [(["sd", "MemoryCards", "GC", "DL-DOL-GAFE-USA", "DL-DOL-GAFE-USA-1.raw"], "save")]⟩

/-- Dry-run invocation converting to GCMCE with a backup directory `bk`
that does not exist yet. -/
def c1Args : Args :=
  ⟨["sd"], true, none, some ["bk"], none, false, true, false⟩

/-! ## Claims -/

/-- C1: dry-run never mutates the filesystem. The executor and the backup
step do indeed only print under dry-run (the two universally quantified
conjuncts), but `main` is not mutation-free: when a backup directory is
supplied it runs `backup_dir.mkdir(parents=True, exist_ok=True)` before
`do_backup` looks at the dry-run flag, so a run with `--dry-run
--backup-dir bk` creates the directory `bk` on disk. -/
theorem c1_dry_run_creates_backup_dir :
    (∀ plan ow vb fs, execute_plan plan ow true vb fs = .ok fs) ∧
    (∀ sd bd ow fs, do_backup sd bd ow true fs = .ok fs) ∧
    exMCGCP.isDir ["bk"] = false ∧
    main c1Args exMCGCP = .ok (0, exMCGCP.mkdirParents ["bk"]) ∧
    (exMCGCP.mkdirParents ["bk"]).isDir ["bk"] = true := by
  refine ⟨execute_plan_dry_run, fun _ _ _ _ => rfl, by decide, by rfl, by decide⟩

/-- C2: on the default tables, every one-letter key maps forward to its
three-letter code, and mapping that code back yields the key again unless
the code is the catch-all "OTH" (keys X, Y, Z), whose round trip yields
"X". -/
theorem c2_default_region_roundtrip : ∀ kv ∈ DEFAULT_REGION3_FROM_LETTER,
    kv.1.length = 1 ∧
    dget? DEFAULT_REGION3_FROM_LETTER kv.1 = some kv.2 ∧
    (kv.2 ≠ "OTH" → dget? DEFAULT_LETTER_FROM_REGION3 kv.2 = some kv.1) ∧
    (kv.2 = "OTH" → kv.1 ∈ (["X", "Y", "Z"] : List String) ∧
       dget? DEFAULT_LETTER_FROM_REGION3 kv.2 = some "X") := by decide

/-- Witness for C2 at the concrete keys E (round-trips) and X (lossy). -/
theorem c2_default_region_roundtrip_witness :
    (("E", "USA") ∈ DEFAULT_REGION3_FROM_LETTER ∧
      (("E", "USA").2 ≠ "OTH" →
        dget? DEFAULT_LETTER_FROM_REGION3 ("E", "USA").2 = some ("E", "USA").1)) ∧
    (("X", "OTH") ∈ DEFAULT_REGION3_FROM_LETTER ∧
      (("X", "OTH").2 = "OTH" →
        ("X", "OTH").1 ∈ (["X", "Y", "Z"] : List String) ∧
        dget? DEFAULT_LETTER_FROM_REGION3 ("X", "OTH").2 = some "X")) :=
  ⟨⟨by decide, (c2_default_region_roundtrip ("E", "USA") (by decide)).2.2.1⟩,
   ⟨by decide, (c2_default_region_roundtrip ("X", "OTH") (by decide)).2.2.2⟩⟩

/-- C3: with the default map, planning MCGCP→GCMCE over the tree holding
exactly `MemoryCards/GAFE0100/GAFE0100-1.raw` yields exactly one item with
destination `out/MemoryCards/GC/DL-DOL-GAFE-USA/DL-DOL-GAFE-USA-1.raw`,
and planning GCMCE→MCGCP over the tree holding exactly
`MemoryCards/GC/DL-DOL-GAFE-USA/DL-DOL-GAFE-USA-1.raw` yields exactly one
item with destination `out/MemoryCards/GAFE0100/GAFE0100-1.raw`. -/
theorem c3_example_plans :
    (plan_mcgcp_to_gcmce exMCGCP ["sd"] ["out"] DEFAULT_REGION3_FROM_LETTER true).map
        PlanItem.dst_file
      = [["out", "MemoryCards", "GC", "DL-DOL-GAFE-USA", "DL-DOL-GAFE-USA-1.raw"]] ∧
    (plan_gcmce_to_mcgcp exGCMCE ["sd"] ["out"] DEFAULT_LETTER_FROM_REGION3 true).map
        PlanItem.dst_file
      = [["out", "MemoryCards", "GAFE0100", "GAFE0100-1.raw"]] := by decide

/-- C6: `load_region_map` merges an override into the defaults: every
override pair lands in the table under its uppercased key with its
uppercased value (stated for overrides whose uppercased keys are distinct,
as in a JSON object), and every default key the override does not mention
keeps its default value. -/
theorem c6_override_merges_into_defaults (o : RegionOverride)
    (h1 : (o.letter_to_region3.map (fun kv => upper kv.1)).Nodup)
    (h2 : (o.region3_to_letter.map (fun kv => upper kv.1)).Nodup) :
    (∀ kv ∈ o.letter_to_region3,
       dget? (load_region_map (some o)).1 (upper kv.1) = some (upper kv.2)) ∧
    (∀ kv ∈ o.region3_to_letter,
       dget? (load_region_map (some o)).2 (upper kv.1) = some (upper kv.2)) ∧
    (∀ k ∈ dkeys DEFAULT_REGION3_FROM_LETTER,
       k ∉ o.letter_to_region3.map (fun kv => upper kv.1) →
       dget? (load_region_map (some o)).1 k = dget? DEFAULT_REGION3_FROM_LETTER k) ∧
    (∀ k ∈ dkeys DEFAULT_LETTER_FROM_REGION3,
       k ∉ o.region3_to_letter.map (fun kv => upper kv.1) →
       dget? (load_region_map (some o)).2 k = dget? DEFAULT_LETTER_FROM_REGION3 k) := by
  refine ⟨fun kv hkv => ?_, fun kv hkv => ?_, fun k _ hk => ?_, fun k _ hk => ?_⟩
  · exact dget_applyOverrides_of_mem _ _ _ _ h1 hkv
  · exact dget_applyOverrides_of_mem _ _ _ _ h2 hkv
  · exact dget_applyOverrides_of_not_mem _ _ _ hk
  · exact dget_applyOverrides_of_not_mem _ _ _ hk

/-- An example override: lowercase letter key with a fresh 3-letter code,
and a redefinition of the USA back-mapping. -/
def exOverride : RegionOverride := ⟨[("e", "xyz")], [("usa", "q")]⟩

/-- Witness for C6 at `exOverride`: the override entries land uppercased,
and an untouched default key keeps its default value. -/
theorem c6_override_merges_into_defaults_witness :
    (dget? (load_region_map (some exOverride)).1 (upper "e") = some (upper "xyz")) ∧
    (dget? (load_region_map (some exOverride)).2 (upper "usa") = some (upper "q")) ∧
    (dget? (load_region_map (some exOverride)).1 "J" = dget? DEFAULT_REGION3_FROM_LETTER "J") :=
  ⟨(c6_override_merges_into_defaults exOverride (by decide) (by decide)).1
      ("e", "xyz") (by decide),
   (c6_override_merges_into_defaults exOverride (by decide) (by decide)).2.1
      ("usa", "q") (by decide),
   (c6_override_merges_into_defaults exOverride (by decide) (by decide)).2.2.1
      "J" (by decide) (by decide)⟩

/-! ## Path and filesystem lemmas -/

theorem underPath_iff (root p : Path) : underPath root p = true ↔ root <+: p := by
  unfold underPath
  rw [decide_eq_true_eq]
  constructor
  · intro h
    rw [← h]
    exact List.take_prefix _ _
  · intro h
    exact (List.prefix_iff_eq_take.mp h).symm

theorem prefix_of_isChildOf {parent q : Path} (h : isChildOf parent q = true) :
    parent <+: q := by
  unfold isChildOf at h
  rw [Bool.and_eq_true, decide_eq_true_eq, decide_eq_true_eq] at h
  rw [← h.2]
  exact List.take_prefix _ _

theorem mem_pathPrefixes_iff (p q : Path) :
    q ∈ pathPrefixes p ↔ q ≠ [] ∧ q <+: p := by
  unfold pathPrefixes
  constructor
  · intro h
    rcases List.mem_map.mp h with ⟨i, hi, rfl⟩
    rw [List.mem_range] at hi
    refine ⟨?_, List.take_prefix _ _⟩
    intro hnil
    have := congrArg List.length hnil
    rw [List.length_take] at this
    simp only [List.length_nil] at this
    omega
  · rintro ⟨hne, hpre⟩
    have hq : q = p.take q.length := List.prefix_iff_eq_take.mp hpre
    have hle : q.length ≤ p.length := hpre.length_le
    have hpos : 0 < q.length := List.length_pos.mpr hne
    refine List.mem_map.mpr ⟨q.length - 1, List.mem_range.mpr (by omega), ?_⟩
    rw [show q.length - 1 + 1 = q.length by omega]
    exact hq.symm

theorem not_self_mem_pathPrefixes_dropLast (p : Path) :
    p ∉ pathPrefixes p.dropLast := by
  intro h
  rcases (mem_pathPrefixes_iff _ _).mp h with ⟨hne, hpre⟩
  have hle := hpre.length_le
  rw [List.length_dropLast] at hle
  have : p.length ≠ 0 := fun h0 => hne (List.eq_nil_of_length_eq_zero h0)
  omega

theorem getFile_mkdirParents (fs : FS) (p q : Path) :
    (fs.mkdirParents p).getFile q = fs.getFile q := rfl

theorem isFile_mkdirParents (fs : FS) (p q : Path) :
    (fs.mkdirParents p).isFile q = fs.isFile q := rfl

theorem isDir_mkdirParents_of (fs : FS) (p q : Path) (h : fs.isDir q = true) :
    (fs.mkdirParents p).isDir q = true := by
  simp only [FS.isDir, decide_eq_true_eq] at h ⊢
  exact List.mem_append_left _ h

theorem isDir_mkdirParents_of_not_mem (fs : FS) (p q : Path)
    (h : q ∉ pathPrefixes p) :
    (fs.mkdirParents p).isDir q = fs.isDir q := by
  simp only [FS.isDir, FS.mkdirParents]
  refine decide_eq_decide.mpr ?_
  constructor
  · intro hq
    rcases List.mem_append.mp hq with h1 | h2
    · exact h1
    · exact absurd (List.mem_filter.mp h2).1 h
  · exact fun hq => List.mem_append_left _ hq

theorem isDir_mkdirParents_of_mem (fs : FS) (p q : Path) (h : q ∈ pathPrefixes p) :
    (fs.mkdirParents p).isDir q = true := by
  simp only [FS.isDir, FS.mkdirParents, decide_eq_true_eq]
  by_cases hd : q ∈ fs.dirs
  · exact List.mem_append_left _ hd
  · refine List.mem_append_right _ (List.mem_filter.mpr ⟨h, ?_⟩)
    simp [FS.isDir, hd]

theorem existsPath_mkdirParents_of (fs : FS) (p q : Path)
    (h : fs.existsPath q = true) :
    (fs.mkdirParents p).existsPath q = true := by
  unfold FS.existsPath at h ⊢
  rw [isFile_mkdirParents]
  rw [Bool.or_eq_true] at h
  rcases h with h1 | h2
  · rw [isDir_mkdirParents_of _ _ _ h1]
    rfl
  · rw [h2, Bool.or_true]

theorem existsPath_mkdirParents_dropLast (fs : FS) (p : Path) :
    (fs.mkdirParents p.dropLast).existsPath p = fs.existsPath p := by
  unfold FS.existsPath
  rw [isFile_mkdirParents,
    isDir_mkdirParents_of_not_mem _ _ _ (not_self_mem_pathPrefixes_dropLast p)]

theorem find?_filter_of_keep {α : Type} (l : List α) (pk keep : α → Bool)
    (h : ∀ a, pk a = true → keep a = true) :
    (l.filter keep).find? pk = l.find? pk := by
  induction l with
  | nil => rfl
  | cons hd tl ih =>
    cases hk : keep hd with
    | false =>
      have hp : ¬pk hd = true := fun hpk => by rw [h hd hpk] at hk; cases hk
      rw [List.filter_cons_of_neg (by simp [hk]), ih, List.find?_cons_of_neg _ hp]
    | true =>
      rw [List.filter_cons_of_pos hk]
      cases hp : pk hd with
      | true => rw [List.find?_cons_of_pos _ hp, List.find?_cons_of_pos _ hp]
      | false =>
        rw [List.find?_cons_of_neg _ (by simp [hp]),
          List.find?_cons_of_neg _ (by simp [hp]), ih]

theorem getFile_cons_self (ds : List Path) (files : List (Path × String))
    (p : Path) (c : String) :
    FS.getFile ⟨ds, (p, c) :: files⟩ p = some c := by
  simp [FS.getFile, List.find?]

theorem getFile_cons_ne (ds : List Path) (files : List (Path × String))
    (p q : Path) (c : String) (h : p ≠ q) :
    FS.getFile ⟨ds, (p, c) :: files⟩ q = FS.getFile ⟨ds, files⟩ q := by
  simp [FS.getFile, List.find?, h]

theorem getFile_filter_keep (ds : List Path) (files : List (Path × String))
    (keep : Path × String → Bool) (q : Path)
    (h : ∀ kv : Path × String, kv.1 = q → keep kv = true) :
    FS.getFile ⟨ds, files.filter keep⟩ q = FS.getFile ⟨ds, files⟩ q := by
  unfold FS.getFile
  rw [find?_filter_of_keep]
  intro kv hkv
  exact h kv (of_decide_eq_true hkv)

theorem getFile_filter_drop (ds : List Path) (files : List (Path × String))
    (keep : Path × String → Bool) (q : Path)
    (h : ∀ kv : Path × String, kv.1 = q → keep kv = false) :
    FS.getFile ⟨ds, files.filter keep⟩ q = none := by
  unfold FS.getFile
  rw [List.find?_eq_none.mpr]
  · rfl
  · intro kv hkv hdec
    have h1 := (List.mem_filter.mp hkv).2
    rw [h kv (of_decide_eq_true hdec)] at h1
    cases h1

theorem replaceFile_eq (fs : FS) (src dst : Path) (c : String)
    (h : fs.getFile src = some c) :
    fs.replaceFile src dst
      = .ok { fs with
              files := (dst, c) :: fs.files.filter
                (fun kv => decide (kv.1 ≠ src) && decide (kv.1 ≠ dst)) } := by
  unfold FS.replaceFile
  rw [h]

theorem copy2_eq (fs : FS) (src dst : Path) (c : String)
    (h : fs.getFile src = some c) :
    fs.copy2 src dst
      = .ok { fs with
              files := (dst, c) :: fs.files.filter
                (fun kv => decide (kv.1 ≠ dst)) } := by
  unfold FS.copy2
  rw [h]

theorem getFile_rmdirTry (fs : FS) (p q : Path) :
    (fs.rmdirTry p).getFile q = fs.getFile q := by
  unfold FS.rmdirTry
  split <;> rfl

/-- C10: both `safe_move` and `safe_copy` call
`dst.parent.mkdir(parents=True, exist_ok=True)` before the collision
check, so on a `FileExistsError` (destination exists, no force) the whole
parent chain of the destination is already present in the state the error
leaves behind. -/
theorem c10_parents_created_before_collision_check (src dst : Path) (fs : FS)
    (hdst : fs.existsPath dst = true) :
    safe_move src dst false fs = .error (Err.fileExists, fs.mkdirParents dst.dropLast) ∧
    safe_copy src dst false fs = .error (Err.fileExists, fs.mkdirParents dst.dropLast) ∧
    (∀ q, q <+: dst.dropLast → q ≠ [] →
      (fs.mkdirParents dst.dropLast).isDir q = true) := by
  have hex : (fs.mkdirParents dst.dropLast).existsPath dst = true := by
    rw [existsPath_mkdirParents_dropLast]
    exact hdst
  refine ⟨?_, ?_, ?_⟩
  · simp only [safe_move]
    rw [if_pos hex, if_neg (by simp)]
  · simp only [safe_copy]
    rw [if_pos hex, if_neg (by simp)]
  · intro q hq hqne
    exact isDir_mkdirParents_of_mem _ _ _ ((mem_pathPrefixes_iff _ _).mpr ⟨hqne, hq⟩)

/-- Witness for C10: a collision on `a/b/c.raw` with no force reports
`FileExistsError` and has created the directories `a` and `a/b`. -/
theorem c10_parents_created_before_collision_check_witness :
    safe_move ["s.raw"] ["a", "b", "c.raw"] false (FS.mk [] [(["a", "b", "c.raw"], "old")])
      = .error (Err.fileExists,
          (FS.mk [] [(["a", "b", "c.raw"], "old")]).mkdirParents ["a", "b", "c.raw"].dropLast) ∧
    safe_copy ["s.raw"] ["a", "b", "c.raw"] false (FS.mk [] [(["a", "b", "c.raw"], "old")])
      = .error (Err.fileExists,
          (FS.mk [] [(["a", "b", "c.raw"], "old")]).mkdirParents ["a", "b", "c.raw"].dropLast) ∧
    (∀ q, q <+: (["a", "b", "c.raw"] : Path).dropLast → q ≠ [] →
      ((FS.mk [] [(["a", "b", "c.raw"], "old")]).mkdirParents
        ["a", "b", "c.raw"].dropLast).isDir q = true) :=
  c10_parents_created_before_collision_check ["s.raw"] ["a", "b", "c.raw"]
    (FS.mk [] [(["a", "b", "c.raw"], "old")]) (by decide)

/-- C4: executing an item whose destination file already exists fails with
`FileExistsError` when force is off, leaving the destination's contents
untouched; with force on, the old destination is removed first and the
move (resp. copy) proceeds, leaving the source's contents at the
destination. -/
theorem c4_collision_requires_force (src dst : Path) (fs : FS) (c d : String)
    (hsrc : fs.getFile src = some c) (hdst : fs.getFile dst = some d)
    (hdd : fs.isDir dst = false) (hne : src ≠ dst) :
    (safe_move src dst false fs = .error (Err.fileExists, fs.mkdirParents dst.dropLast) ∧
     safe_copy src dst false fs = .error (Err.fileExists, fs.mkdirParents dst.dropLast) ∧
     (fs.mkdirParents dst.dropLast).getFile dst = some d) ∧
    (∃ fsM, safe_move src dst true fs = .ok fsM ∧
       fsM.getFile dst = some c ∧ fsM.getFile src = none) ∧
    (∃ fsC, safe_copy src dst true fs = .ok fsC ∧
       fsC.getFile dst = some c ∧ fsC.getFile src = some c) := by
  have hfile1 : (fs.mkdirParents dst.dropLast).getFile dst = some d := hdst
  have hex : (fs.mkdirParents dst.dropLast).existsPath dst = true := by
    unfold FS.existsPath FS.isFile
    rw [getFile_mkdirParents, hdst]
    simp
  have hdd1 : (fs.mkdirParents dst.dropLast).isDir dst = false := by
    rw [isDir_mkdirParents_of_not_mem _ _ _ (not_self_mem_pathPrefixes_dropLast dst)]
    exact hdd
  have hsrc2 : ((fs.mkdirParents dst.dropLast).unlink dst).getFile src = some c := by
    unfold FS.unlink
    rw [getFile_filter_keep]
    · exact hsrc
    · intro kv hkv
      simp [hkv, hne]
  refine ⟨⟨?_, ?_, hfile1⟩, ?_, ?_⟩
  · simp only [safe_move]
    rw [if_pos hex, if_neg (by simp)]
  · simp only [safe_copy]
    rw [if_pos hex, if_neg (by simp)]
  · have hmv : safe_move src dst true fs
        = ((fs.mkdirParents dst.dropLast).unlink dst).replaceFile src dst := by
      simp only [safe_move]
      rw [if_pos hex]
      simp only [if_true]
      rw [if_neg (by simp [hdd1])]
    rw [replaceFile_eq _ _ _ c hsrc2] at hmv
    refine ⟨_, hmv, getFile_cons_self _ _ _ _, ?_⟩
    rw [getFile_cons_ne _ _ _ _ _ (Ne.symm hne)]
    apply getFile_filter_drop
    intro kv hkv
    simp [hkv]
  · have hcp : safe_copy src dst true fs
        = ((fs.mkdirParents dst.dropLast).unlink dst).copy2 src dst := by
      simp only [safe_copy]
      rw [if_pos hex]
      simp only [if_true]
      rw [if_neg (by simp [hdd1])]
    rw [copy2_eq _ _ _ c hsrc2] at hcp
    refine ⟨_, hcp, getFile_cons_self _ _ _ _, ?_⟩
    rw [getFile_cons_ne _ _ _ _ _ (Ne.symm hne)]
    rw [getFile_filter_keep]
    · exact hsrc2
    · intro kv hkv
      simp [hkv, hne]

/-- Witness for C4 on a one-file collision: `x/b.raw` onto existing
`sd/a.raw`. -/
theorem c4_collision_requires_force_witness :
    (safe_move ["x", "b.raw"] ["sd", "a.raw"] false
        (FS.mk [["sd"]] [(["sd", "a.raw"], "old"), (["x", "b.raw"], "new")])
      = .error (Err.fileExists,
          (FS.mk [["sd"]] [(["sd", "a.raw"], "old"), (["x", "b.raw"], "new")]).mkdirParents
            ["sd", "a.raw"].dropLast) ∧
     safe_copy ["x", "b.raw"] ["sd", "a.raw"] false
        (FS.mk [["sd"]] [(["sd", "a.raw"], "old"), (["x", "b.raw"], "new")])
      = .error (Err.fileExists,
          (FS.mk [["sd"]] [(["sd", "a.raw"], "old"), (["x", "b.raw"], "new")]).mkdirParents
            ["sd", "a.raw"].dropLast) ∧
     ((FS.mk [["sd"]] [(["sd", "a.raw"], "old"), (["x", "b.raw"], "new")]).mkdirParents
        ["sd", "a.raw"].dropLast).getFile ["sd", "a.raw"] = some "old") ∧
    (∃ fsM, safe_move ["x", "b.raw"] ["sd", "a.raw"] true
        (FS.mk [["sd"]] [(["sd", "a.raw"], "old"), (["x", "b.raw"], "new")]) = .ok fsM ∧
       fsM.getFile ["sd", "a.raw"] = some "new" ∧ fsM.getFile ["x", "b.raw"] = none) ∧
    (∃ fsC, safe_copy ["x", "b.raw"] ["sd", "a.raw"] true
        (FS.mk [["sd"]] [(["sd", "a.raw"], "old"), (["x", "b.raw"], "new")]) = .ok fsC ∧
       fsC.getFile ["sd", "a.raw"] = some "new" ∧
       fsC.getFile ["x", "b.raw"] = some "new") :=
  c4_collision_requires_force ["x", "b.raw"] ["sd", "a.raw"]
    (FS.mk [["sd"]] [(["sd", "a.raw"], "old"), (["x", "b.raw"], "new")]) "new" "old"
    (by decide) (by decide) (by decide) (by decide)

/-- C8: `main` exits with code 1 exactly when `{sd-root}/MemoryCards` is
missing; every run that finishes without a raised exception otherwise
(including one that plans nothing) exits with code 0. -/
theorem c8_exit_codes (a : Args) (fs : FS) (code : Nat) (fs2 : FS)
    (h : main a fs = .ok (code, fs2)) :
    (code = 1 ↔ fs.existsPath (a.sd_root ++ ["MemoryCards"]) = false) ∧
    (code = 0 ∨ code = 1) := by
  by_cases hm : fs.existsPath (a.sd_root ++ ["MemoryCards"]) = false
  · simp only [main] at h
    rw [if_pos hm] at h
    simp only [Except.ok.injEq, Prod.mk.injEq] at h
    obtain ⟨hcode, hfs⟩ := h
    subst hcode
    exact ⟨⟨fun _ => hm, fun _ => rfl⟩, Or.inr rfl⟩
  · simp only [main] at h
    rw [if_neg hm] at h
    split at h
    · exact Except.noConfusion h
    · split at h <;> split at h <;>
        (try split at h) <;>
        (try exact Except.noConfusion h) <;>
        (simp only [Except.ok.injEq, Prod.mk.injEq] at h
         obtain ⟨hcode, hfs⟩ := h
         subst hcode
         exact ⟨⟨fun h01 => absurd h01 (by decide), fun hf => absurd hf hm⟩, Or.inl rfl⟩)

/-- Witness for C8: an empty filesystem is missing `sd/MemoryCards`, so
the run exits with code 1. -/
theorem c8_exit_codes_witness :
    ((1 : Nat) = 1 ↔ (FS.mk [] []).existsPath ((["sd"] : Path) ++ ["MemoryCards"]) = false) ∧
    ((1 : Nat) = 0 ∨ (1 : Nat) = 1) :=
  c8_exit_codes ⟨["sd"], true, none, none, none, false, false, false⟩
    (FS.mk [] []) 1 (FS.mk [] []) (by rfl)

/-- C7: in MCGCP→GCMCE planning every item comes from a scanned entry, and
the three-letter code in its destination directory and file name is the
active table's value for the (uppercased) fourth GAMEID character when
that letter is a key, and "OTH" when it is not. -/
theorem c7_region3_from_table_or_oth (fs : FS) (sd_root out_root : Path)
    (l2r : Dict) (cm : Bool) (it : PlanItem)
    (hit : it ∈ plan_mcgcp_to_gcmce fs sd_root out_root l2r cm) :
    ∃ d f gameid, (d, f, gameid) ∈ scan_mcgcp fs (sd_root ++ ["MemoryCards"]) ∧
      it.src_dir = d ∧ it.src_file = f ∧
      (∀ v, dget? l2r (upper (String.mk [gameid.toList.getLastD ' '])) = some v →
        it.dst_dir = (out_root ++ ["MemoryCards", "GC"])
            ++ ["DL-DOL-" ++ gameid ++ "-" ++ v] ∧
        it.dst_file = it.dst_dir ++ ["DL-DOL-" ++ gameid ++ "-" ++ v ++ "-1.raw"]) ∧
      (dget? l2r (upper (String.mk [gameid.toList.getLastD ' '])) = none →
        it.dst_dir = (out_root ++ ["MemoryCards", "GC"])
            ++ ["DL-DOL-" ++ gameid ++ "-" ++ "OTH"] ∧
        it.dst_file = it.dst_dir ++ ["DL-DOL-" ++ gameid ++ "-" ++ "OTH" ++ "-1.raw"]) := by
  rcases List.mem_map.mp hit with ⟨e, he, rfl⟩
  refine ⟨e.1, e.2.1, e.2.2, he, rfl, rfl, ?_, ?_⟩
  · intro v hv
    constructor <;> simp only [hv, Option.getD_some]
  · intro hv
    constructor <;> simp only [hv, Option.getD_none]

/-- The concrete plan item for the GAFE example, used as the C7 witness
input. -/
def c7item : PlanItem :=
  ⟨["sd", "MemoryCards", "GAFE0100"],
   ["sd", "MemoryCards", "GAFE0100", "GAFE0100-1.raw"],
   ["out", "MemoryCards", "GC", "DL-DOL-GAFE-USA"],
   ["out", "MemoryCards", "GC", "DL-DOL-GAFE-USA", "DL-DOL-GAFE-USA-1.raw"],
   "copy", "MCGCP->GCMCE GAFE -> DL-DOL-GAFE-USA"⟩

/-- Witness for C7 at the GAFE example plan item. -/
theorem c7_region3_from_table_or_oth_witness :
    ∃ d f gameid,
      (d, f, gameid) ∈ scan_mcgcp exMCGCP ((["sd"] : Path) ++ ["MemoryCards"]) ∧
      c7item.src_dir = d ∧ c7item.src_file = f ∧
      (∀ v, dget? DEFAULT_REGION3_FROM_LETTER
          (upper (String.mk [gameid.toList.getLastD ' '])) = some v →
        c7item.dst_dir = ((["out"] : Path) ++ ["MemoryCards", "GC"])
            ++ ["DL-DOL-" ++ gameid ++ "-" ++ v] ∧
        c7item.dst_file = c7item.dst_dir ++ ["DL-DOL-" ++ gameid ++ "-" ++ v ++ "-1.raw"]) ∧
      (dget? DEFAULT_REGION3_FROM_LETTER
          (upper (String.mk [gameid.toList.getLastD ' '])) = none →
        c7item.dst_dir = ((["out"] : Path) ++ ["MemoryCards", "GC"])
            ++ ["DL-DOL-" ++ gameid ++ "-" ++ "OTH"] ∧
        c7item.dst_file = c7item.dst_dir
            ++ ["DL-DOL-" ++ gameid ++ "-" ++ "OTH" ++ "-1.raw"]) :=
  c7_region3_from_table_or_oth exMCGCP ["sd"] ["out"] DEFAULT_REGION3_FROM_LETTER
    true c7item (by decide)

/-- C9: in GCMCE→MCGCP planning the region table is never consulted (the
plan is literally independent of it), every item's destination is
determined by the GAMEID alone, and two scanned entries sharing a GAMEID
are planned to the identical destination whatever their region codes. -/
theorem c9_dst_depends_only_on_gameid (fs : FS) (sd_root out_root : Path)
    (r2l r2l' : Dict) (cm : Bool) :
    plan_gcmce_to_mcgcp fs sd_root out_root r2l cm
      = plan_gcmce_to_mcgcp fs sd_root out_root r2l' cm ∧
    (∀ it ∈ plan_gcmce_to_mcgcp fs sd_root out_root r2l cm,
      ∃ d f gameid region3,
        (d, f, gameid, region3) ∈ scan_gcmce fs (sd_root ++ ["MemoryCards", "GC"]) ∧
        it.src_dir = d ∧ it.src_file = f ∧
        it.dst_dir = (out_root ++ ["MemoryCards"]) ++ [gameid ++ "0100"] ∧
        it.dst_file = it.dst_dir ++ [gameid ++ "0100" ++ "-1.raw"]) ∧
    (∀ d1 f1 r1 d2 f2 r2 gameid,
      (d1, f1, gameid, r1) ∈ scan_gcmce fs (sd_root ++ ["MemoryCards", "GC"]) →
      (d2, f2, gameid, r2) ∈ scan_gcmce fs (sd_root ++ ["MemoryCards", "GC"]) →
      ∃ it1 it2, it1 ∈ plan_gcmce_to_mcgcp fs sd_root out_root r2l cm ∧
        it2 ∈ plan_gcmce_to_mcgcp fs sd_root out_root r2l cm ∧
        it1.src_dir = d1 ∧ it2.src_dir = d2 ∧
        it1.dst_dir = it2.dst_dir ∧ it1.dst_file = it2.dst_file) := by
  refine ⟨rfl, ?_, ?_⟩
  · intro it hit
    rcases List.mem_map.mp hit with ⟨e, he, rfl⟩
    exact ⟨e.1, e.2.1, e.2.2.1, e.2.2.2, he, rfl, rfl, rfl, rfl⟩
  · intro d1 f1 r1 d2 f2 r2 g h1 h2
    exact ⟨_, _, List.mem_map.mpr ⟨(d1, f1, g, r1), h1, rfl⟩,
      List.mem_map.mpr ⟨(d2, f2, g, r2), h2, rfl⟩, rfl, rfl, rfl, rfl⟩

/-- C5: executing a `move` item (not in dry-run) always continues with the
rest of the plan — the post-move cleanup raises no error; the save file
ends up at the destination and is gone from the source; when the source
directory contained only the save file it is deleted afterwards, while a
remaining directory child keeps the source directory alive. -/
theorem c5_move_then_cleanup (it : PlanItem) (rest : List PlanItem)
    (ow vb : Bool) (fs : FS) (c : String)
    (hact : it.action = "move")
    (hsrc : fs.getFile it.src_file = some c)
    (hsd : fs.isDir it.src_dir = true)
    (hsfd : fs.isDir it.src_file = false)
    (hdst : fs.existsPath it.dst_file = false)
    (hnu : underPath it.src_dir it.dst_file = false) :
    ∃ fs2, execute_plan (it :: rest) ow false vb fs = execute_plan rest ow false vb fs2 ∧
      fs2.getFile it.dst_file = some c ∧
      fs2.getFile it.src_file = none ∧
      ((∀ q ∈ fs.allPaths, isChildOf it.src_dir q = true → q = it.src_file) →
        fs2.isDir it.src_dir = false) ∧
      (∀ q0, q0 ∈ fs.dirs → isChildOf it.src_dir q0 = true →
        fs2.isDir it.src_dir = true) := by
  have hnu' : ¬ (it.src_dir <+: it.dst_file) := by
    intro hp
    have h1 := (underPath_iff it.src_dir it.dst_file).mpr hp
    rw [hnu] at h1
    cases h1
  have hne : it.src_file ≠ it.dst_file := by
    intro he
    rw [he] at hsrc
    have h1 : fs.isFile it.dst_file = true := by
      unfold FS.isFile
      rw [hsrc]
      rfl
    unfold FS.existsPath at hdst
    rw [h1, Bool.or_true] at hdst
    cases hdst
  have hsrc1 : (fs.mkdirParents it.dst_file.dropLast).getFile it.src_file = some c := hsrc
  have hex1 : (fs.mkdirParents it.dst_file.dropLast).existsPath it.dst_file = false := by
    rw [existsPath_mkdirParents_dropLast]
    exact hdst
  set fsm : FS :=
    ⟨(fs.mkdirParents it.dst_file.dropLast).dirs,
     (it.dst_file, c) :: (fs.mkdirParents it.dst_file.dropLast).files.filter
       (fun kv => decide (kv.1 ≠ it.src_file) && decide (kv.1 ≠ it.dst_file))⟩ with hfsm
  have hsm : safe_move it.src_file it.dst_file ow fs = .ok fsm := by
    simp only [safe_move]
    rw [if_neg (by simp [hex1])]
    rw [replaceFile_eq _ _ _ c hsrc1, hfsm]
  have hdir : fsm.isDir it.src_dir = true := by
    rw [hfsm]
    exact isDir_mkdirParents_of _ _ _ hsd
  have hchild : ∀ (_ : ∀ q ∈ fs.allPaths, isChildOf it.src_dir q = true → q = it.src_file),
      fsm.childrenOf it.src_dir = [] := by
    intro honly
    rw [hfsm]
    unfold FS.childrenOf FS.allPaths
    refine List.filter_eq_nil_iff.mpr ?_
    intro q hq hchild
    rcases List.mem_append.mp hq with hdq | hfq
    · rcases List.mem_append.mp hdq with hq1 | hq2
      · have heq := honly q (List.mem_append_left _ hq1) hchild
        rw [heq] at hq1
        have h1 : fs.isDir it.src_file = true := decide_eq_true hq1
        rw [hsfd] at h1
        cases h1
      · have hq3 := (List.mem_filter.mp hq2).1
        have hqp : q <+: it.dst_file :=
          ((mem_pathPrefixes_iff _ _).mp hq3).2.trans (List.dropLast_prefix _)
        exact hnu' ((prefix_of_isChildOf hchild).trans hqp)
    · rcases List.mem_map.mp hfq with ⟨kv, hkv, rfl⟩
      rcases List.mem_cons.mp hkv with hkv1 | hkv2
      · rw [hkv1] at hchild
        exact hnu' (prefix_of_isChildOf hchild)
      · have hkv3 := List.mem_filter.mp hkv2
        have heq := honly kv.1
          (List.mem_append_right _ (List.mem_map.mpr ⟨kv, hkv3.1, rfl⟩)) hchild
        have hkeep := hkv3.2
        rw [Bool.and_eq_true, decide_eq_true_eq, decide_eq_true_eq] at hkeep
        exact hkeep.1 heq
  have hitem : execute_item it ow fs
      = .ok (if (fsm.childrenOf it.src_dir).isEmpty
             then fsm.rmdirTry it.src_dir else fsm) := by
    simp only [execute_item, hact, if_true, hsm]
    rw [if_neg (by rw [hdir]; simp)]
    by_cases hce : (fsm.childrenOf it.src_dir).isEmpty = true
    · rw [if_pos hce, if_pos hce]
    · rw [if_neg hce, if_neg hce]
  have hplan : execute_plan (it :: rest) ow false vb fs
      = execute_plan rest ow false vb
          (if (fsm.childrenOf it.src_dir).isEmpty
           then fsm.rmdirTry it.src_dir else fsm) := by
    show (match execute_item it ow fs with
          | Except.error e => (Except.error e : Except (Err × FS) FS)
          | Except.ok fs2 => execute_plan rest ow false vb fs2) = _
    rw [hitem]
  refine ⟨_, hplan, ?_, ?_, ?_, ?_⟩
  · by_cases hce : (fsm.childrenOf it.src_dir).isEmpty = true
    · rw [if_pos hce, getFile_rmdirTry, hfsm]
      exact getFile_cons_self _ _ _ _
    · rw [if_neg hce, hfsm]
      exact getFile_cons_self _ _ _ _
  · have hnone : fsm.getFile it.src_file = none := by
      rw [hfsm]
      rw [getFile_cons_ne _ _ _ _ _ (Ne.symm hne)]
      apply getFile_filter_drop
      intro kv hkv
      simp [hkv]
    by_cases hce : (fsm.childrenOf it.src_dir).isEmpty = true
    · rw [if_pos hce, getFile_rmdirTry]
      exact hnone
    · rw [if_neg hce]
      exact hnone
  · intro honly
    have hc0 := hchild honly
    rw [if_pos (by rw [hc0]; rfl)]
    unfold FS.rmdirTry
    rw [if_pos (by rw [hdir, hc0]; rfl)]
    simp [FS.isDir, List.mem_filter]
  · intro q0 hq0 hc0
    have hmem : q0 ∈ fsm.childrenOf it.src_dir := by
      rw [hfsm]
      unfold FS.childrenOf FS.allPaths
      exact List.mem_filter.mpr
        ⟨List.mem_append_left _ (List.mem_append_left _ hq0), hc0⟩
    rw [if_neg (fun hce => (List.ne_nil_of_mem hmem) (List.isEmpty_iff.mp hce))]
    exact hdir

/-- The concrete in-place move item for the GAFE example, used as the C5
witness input. -/
def c5item : PlanItem :=
  ⟨["sd", "MemoryCards", "GAFE0100"],
   ["sd", "MemoryCards", "GAFE0100", "GAFE0100-1.raw"],
   ["sd", "MemoryCards", "GC", "DL-DOL-GAFE-USA"],
   ["sd", "MemoryCards", "GC", "DL-DOL-GAFE-USA", "DL-DOL-GAFE-USA-1.raw"],
   "move", "MCGCP->GCMCE GAFE -> DL-DOL-GAFE-USA"⟩

/-- Witness for C5: moving the single GAFE save in place. -/
theorem c5_move_then_cleanup_witness :
    ∃ fs2, execute_plan (c5item :: []) false false false exMCGCP
        = execute_plan [] false false false fs2 ∧
      fs2.getFile c5item.dst_file = some "save" ∧
      fs2.getFile c5item.src_file = none ∧
      ((∀ q ∈ exMCGCP.allPaths, isChildOf c5item.src_dir q = true → q = c5item.src_file) →
        fs2.isDir c5item.src_dir = false) ∧
      (∀ q0, q0 ∈ exMCGCP.dirs → isChildOf c5item.src_dir q0 = true →
        fs2.isDir c5item.src_dir = true) :=
  c5_move_then_cleanup c5item [] false false exMCGCP "save"
    (by decide) (by decide) (by decide) (by decide) (by decide) (by decide)

end VMC
